import Mathlib

/-!
Verification of the data-cleaning and loading pipeline in
backend/data_processor.py (class DataProcessor) against its
natural-language specification.

Modelling conventions:
  * A pandas dataframe is a list of records; a column is the map of a field
    over that list.
  * Machine floats are modelled by exact rationals.  The columns that
    pandas dropna inspects (the two timestamps and the four coordinates)
    are Option-valued: none models a missing value (NaN / NaT).  As in
    pandas, every ordering comparison against a missing value is false,
    so a validity predicate never fires on a missing field.
  * pandas Series.round(2) is modelled by round2 below.
  * The Haversine distance (a transcendental function of its inputs) is
    modelled twice: exactly, over the reals, as haversine_distance, for
    the claims about the distance function itself; and as an arbitrary
    parameter distFn of the pipeline functions, since every claimed
    pipeline property holds uniformly in the distance values.
  * The mutable accumulator self.excluded_records is modelled by the
    second component of the result of each cleaning stage: the list of
    identifiers that the stage appends to the ledger.
  * The SQL tables written by save_to_database are modelled by lists of
    rows; ON CONFLICT DO NOTHING is insert-if-absent, ON CONFLICT DO
    UPDATE is upsert-replace, and the SERIAL zone id is the position of
    the zone row in the zones table (stable under in-place replacement,
    as a SERIAL key is).
-/

/-- Raw trip record: one row of train.csv, as loaded by load_data.
The six columns in the dropna subset of clean_data are Option-valued. -/
structure RawRecord where
  id : String
  vendor_id : Int
  pickup_datetime : Option Int
  dropoff_datetime : Option Int
  pickup_latitude : Option ℚ
  pickup_longitude : Option ℚ
  dropoff_latitude : Option ℚ
  dropoff_longitude : Option ℚ
  passenger_count : Int
  trip_duration : ℚ
  store_and_fwd_flag : String
  deriving DecidableEq

/-- NYC bounding box, clean_data lines 63-66. -/
def latMin : ℚ := 40.4774

/-- NYC bounding box, clean_data lines 63-66. -/
def latMax : ℚ := 40.9176

/-- NYC bounding box, clean_data lines 63-66. -/
def lonMin : ℚ := -74.2591

/-- NYC bounding box, clean_data lines 63-66. -/
def lonMax : ℚ := -73.7004

/-- First-occurrence deduplication by a key, as pandas drop_duplicates
(keep the first row per key) and Series.unique (first-occurrence order)
do; seen is the accumulator of keys already kept. -/
def dedupByKey {α β : Type} [DecidableEq β] (key : α → β) : List α → List β → List α
  | [], _ => []
  | a :: l, seen =>
    if key a ∈ seen then dedupByKey key l seen
    else a :: dedupByKey key l (key a :: seen)

/-- df.drop_duplicates with subset id: keep the first record per identifier. -/
def dropDuplicatesById (df : List RawRecord) : List RawRecord :=
  dedupByKey (fun r => r.id) df []

/-- The dropna subset of clean_data line 50: both timestamps and all four
coordinates must be present. -/
def hasRequiredFields (r : RawRecord) : Bool :=
  r.pickup_datetime.isSome && r.dropoff_datetime.isSome &&
  r.pickup_latitude.isSome && r.pickup_longitude.isSome &&
  r.dropoff_latitude.isSome && r.dropoff_longitude.isSome

/-- Line 58: dropoff_datetime less than or equal to pickup_datetime.
A missing timestamp compares false, as NaT does in pandas. -/
def invalidDatetime (r : RawRecord) : Bool :=
  match r.pickup_datetime, r.dropoff_datetime with
  | some p, some d => decide (d ≤ p)
  | _, _ => false

/-- Ordering test on an optional column value; false on a missing value,
as every comparison against NaN is in pandas. -/
def optLt (x : Option ℚ) (c : ℚ) : Bool :=
  match x with
  | some v => decide (v < c)
  | none => false

/-- Ordering test on an optional column value; false on a missing value. -/
def optGt (x : Option ℚ) (c : ℚ) : Bool :=
  match x with
  | some v => decide (c < v)
  | none => false

/-- Lines 68-77: some coordinate outside the NYC bounding box. -/
def invalidCoords (r : RawRecord) : Bool :=
  optLt r.pickup_latitude latMin || optGt r.pickup_latitude latMax ||
  optLt r.pickup_longitude lonMin || optGt r.pickup_longitude lonMax ||
  optLt r.dropoff_latitude latMin || optGt r.dropoff_latitude latMax ||
  optLt r.dropoff_longitude lonMin || optGt r.dropoff_longitude lonMax

/-- Line 83: trip_duration above 21600 s or below 60 s. -/
def invalidDuration (r : RawRecord) : Bool :=
  decide (r.trip_duration > 21600) || decide (r.trip_duration < 60)

/-- Line 88: passenger_count below 1 or above 6. -/
def invalidPassengers (r : RawRecord) : Bool :=
  decide (r.passenger_count < 1) || decide (r.passenger_count > 6)

/-- The rows surviving the two silent steps of clean_data: deduplication
(line 46) and dropna on the required fields (line 50).  Neither step
appends anything to excluded_records. -/
def validRows (df : List RawRecord) : List RawRecord :=
  (dropDuplicatesById df).filter (fun r => hasRequiredFields r)

/-- DataProcessor.clean_data, lines 40-95: first component the surviving
rows, second component the identifiers appended to excluded_records by
this call (the datetime, coordinate, duration and passenger filters, in
that order). -/
def clean_data (df : List RawRecord) : List RawRecord × List String :=
  let d2 := validRows df
  let d3 := d2.filter (fun r => !invalidDatetime r)
  let d4 := d3.filter (fun r => !invalidCoords r)
  let d5 := d4.filter (fun r => !invalidDuration r)
  let d6 := d5.filter (fun r => !invalidPassengers r)
  (d6,
    (d2.filter (fun r => invalidDatetime r)).map (fun r => r.id) ++
    (d3.filter (fun r => invalidCoords r)).map (fun r => r.id) ++
    (d4.filter (fun r => invalidDuration r)).map (fun r => r.id) ++
    (d5.filter (fun r => invalidPassengers r)).map (fun r => r.id))

/-- The type of the distance function the pipeline applies to the four
coordinate columns (the code instantiates it with haversine_distance). -/
def DistFn : Type := ℚ → ℚ → ℚ → ℚ → ℚ

/-- Pickup latitude column value of a surviving row (always present in
the pipeline, where calculate_derived_features runs after dropna). -/
def pickupLat (r : RawRecord) : ℚ := r.pickup_latitude.getD 0

/-- Pickup longitude column value of a surviving row. -/
def pickupLon (r : RawRecord) : ℚ := r.pickup_longitude.getD 0

/-- Dropoff latitude column value of a surviving row. -/
def dropoffLat (r : RawRecord) : ℚ := r.dropoff_latitude.getD 0

/-- Dropoff longitude column value of a surviving row. -/
def dropoffLon (r : RawRecord) : ℚ := r.dropoff_longitude.getD 0

/-- Line 114: the trip_distance_km column. -/
def tripDistance (distFn : DistFn) (r : RawRecord) : ℚ :=
  distFn (pickupLat r) (pickupLon r) (dropoffLat r) (dropoffLon r)

/-- Line 120: trip_speed_kmh = trip_distance_km / (trip_duration / 3600). -/
def tripSpeed (distFn : DistFn) (r : RawRecord) : ℚ :=
  tripDistance distFn r / (r.trip_duration / 3600)

/-- Line 123: speed above 200 km/h or below 1 km/h. -/
def invalidSpeed (distFn : DistFn) (r : RawRecord) : Bool :=
  decide (tripSpeed distFn r > 200) || decide (tripSpeed distFn r < 1)

/-- Series.round(2): round to two decimal places. -/
def round2 (x : ℚ) : ℚ := (round (x * 100) : ℚ) / 100

/-- Lines 128-136: fare_amount = (2.50 + distance * 1.50 + duration / 60 * 0.50)
rounded to two decimals. -/
def fareAmount (distFn : DistFn) (r : RawRecord) : ℚ :=
  round2 (2.5 + tripDistance distFn r * 1.5 + r.trip_duration / 60 * 0.5)

/-- Line 139: fare_per_km = (fare_amount / trip_distance_km) rounded to
two decimals; no guard against a zero distance. -/
def farePerKm (distFn : DistFn) (r : RawRecord) : ℚ :=
  round2 (fareAmount distFn r / tripDistance distFn r)

/-- Minimum of a column, as Series.min over a nonempty series. -/
def listMin : List ℚ → ℚ
  | [] => 0
  | x :: xs => xs.foldl min x

/-- Maximum of a column, as Series.max over a nonempty series. -/
def listMax : List ℚ → ℚ
  | [] => 0
  | x :: xs => xs.foldl max x

/-- The bin edges pd.cut(series, bins=20) computes: 21 equally spaced
edges over the observed min-max range of the series.  In the regular
case the leftmost edge is lowered by 0.1 percent of the range so the
minimum falls in the first (right-closed) bin; in the degenerate case of
a constant series the range is first widened by 0.1 percent of the
magnitude on each side (by an absolute 0.001 around zero). -/
def cutEdges (mn mx : ℚ) : List ℚ :=
  if mn = mx then
    let adj : ℚ := if mn = 0 then 1 / 1000 else |mn| / 1000
    (List.range 21).map (fun j : ℕ => (mn - adj) + (j : ℚ) * (2 * adj) / 20)
  else
    (mn - (mx - mn) / 1000) ::
      (List.range 20).map (fun j : ℕ => mn + ((j : ℚ) + 1) * (mx - mn) / 20)

/-- numpy searchsorted with side left on a sorted edge array: the number
of edges strictly below the value. -/
def searchSortedLeft (edges : List ℚ) (v : ℚ) : ℕ :=
  edges.countP (fun e => decide (e < v))

/-- The bin index pd.cut(series, bins=20, labels=False) assigns to a
value of the series: searchsorted position in the edge array, minus one. -/
def cutBin (mn mx v : ℚ) : ℕ := searchSortedLeft (cutEdges mn mx) v - 1

/-- Line 153: the zone label string built from the two bin indices. -/
def zoneLabel (a b : ℕ) : String := "Zone_" ++ toString a ++ "_" ++ toString b

/-- DataProcessor.create_zones, lines 148-153: bin the latitude series
and the longitude series independently into 20 bins each over their own
observed ranges, and label each point by its pair of bin indices. -/
def create_zones (lats lons : List ℚ) : List String :=
  List.zipWith
    (fun la lo =>
      zoneLabel (cutBin (listMin lats) (listMax lats) la)
        (cutBin (listMin lons) (listMax lons) lo))
    lats lons

/-- Cleaned trip record: the raw row plus the derived columns that
calculate_derived_features assigns. -/
structure CleanedRecord where
  raw : RawRecord
  trip_distance_km : ℚ
  trip_speed_kmh : ℚ
  fare_amount : ℚ
  fare_per_km : ℚ
  pickup_zone : String
  dropoff_zone : String
  deriving DecidableEq

/-- The cleaned row built for a survivor r of the speed filter; kept is
the whole surviving batch, whose coordinate ranges fix the zone bins. -/
def mkCleaned (distFn : DistFn) (kept : List RawRecord) (r : RawRecord) : CleanedRecord :=
  { raw := r
    trip_distance_km := tripDistance distFn r
    trip_speed_kmh := tripSpeed distFn r
    fare_amount := fareAmount distFn r
    fare_per_km := farePerKm distFn r
    pickup_zone :=
      zoneLabel (cutBin (listMin (kept.map pickupLat)) (listMax (kept.map pickupLat)) (pickupLat r))
        (cutBin (listMin (kept.map pickupLon)) (listMax (kept.map pickupLon)) (pickupLon r))
    dropoff_zone :=
      zoneLabel (cutBin (listMin (kept.map dropoffLat)) (listMax (kept.map dropoffLat)) (dropoffLat r))
        (cutBin (listMin (kept.map dropoffLon)) (listMax (kept.map dropoffLon)) (dropoffLon r)) }

/-- DataProcessor.calculate_derived_features, lines 97-146: compute the
distance and speed columns, drop the rows with speed outside [1, 200]
(appending their identifiers to excluded_records), then assign the fare,
fare-per-km and zone columns on the surviving rows.  The zone columns
are create_zones applied to the surviving coordinate columns, written
here row by row with the surviving batch fixing the bin edges. -/
def calculate_derived_features (distFn : DistFn) (df : List RawRecord) :
    List CleanedRecord × List String :=
  let kept := df.filter (fun r => !invalidSpeed distFn r)
  (kept.map (fun r => mkCleaned distFn kept r),
    (df.filter (fun r => invalidSpeed distFn r)).map (fun r => r.id))

/-- The full cleaning pipeline of clean_all_data_and_save lines 166-169:
clean_data followed by calculate_derived_features, with the two ledger
contributions concatenated in append order. -/
def cleanPipeline (distFn : DistFn) (df : List RawRecord) :
    List CleanedRecord × List String :=
  let c := clean_data df
  let d := calculate_derived_features distFn c.1
  (d.1, c.2 ++ d.2)

/-- DataProcessor.haversine_distance, lines 105-112, over the reals:
Earth radius 6371 km, degrees converted to radians. -/
noncomputable def haversine_distance (lat1 lon1 lat2 lon2 : ℝ) : ℝ :=
  let lat1r := lat1 * (Real.pi / 180)
  let lon1r := lon1 * (Real.pi / 180)
  let lat2r := lat2 * (Real.pi / 180)
  let lon2r := lon2 * (Real.pi / 180)
  let dlat := lat2r - lat1r
  let dlon := lon2r - lon1r
  let a := Real.sin (dlat / 2) ^ 2 +
    Real.cos lat1r * Real.cos lat2r * Real.sin (dlon / 2) ^ 2
  6371 * (2 * Real.arcsin (Real.sqrt a))

/-- Row of the zones table. -/
structure ZoneRow where
  zone_name : String
  latitude : ℚ
  longitude : ℚ
  trip_count : ℕ
  deriving DecidableEq

/-- Row of the trips table: the columns insert_trips writes, with the
zone names replaced by the resolved zone ids. -/
structure TripRow where
  id : String
  vendor_id : Int
  pickup_datetime : Option Int
  dropoff_datetime : Option Int
  passenger_count : Int
  pickup_longitude : Option ℚ
  pickup_latitude : Option ℚ
  dropoff_longitude : Option ℚ
  dropoff_latitude : Option ℚ
  store_and_fwd_flag : String
  trip_duration : ℚ
  trip_distance_km : ℚ
  trip_speed_kmh : ℚ
  fare_amount : ℚ
  fare_per_km : ℚ
  pickup_zone_id : Option ℕ
  dropoff_zone_id : Option ℕ
  deriving DecidableEq

/-- The three normalized tables of database.py. -/
structure DBState where
  vendors : List (Int × String)
  zones : List ZoneRow
  trips : List TripRow
  deriving DecidableEq

/-- One INSERT INTO vendors ... ON CONFLICT (vendor_id) DO NOTHING. -/
def insertVendorRow (vs : List (Int × String)) (vid : Int) : List (Int × String) :=
  if vs.any (fun p => decide (p.1 = vid)) then vs
  else vs ++ [(vid, "Vendor_" ++ toString vid)]

/-- DataProcessor.insert_vendors, lines 227-244: insert-if-absent one row
per distinct vendor id of the batch. -/
def insert_vendors (s : DBState) (df : List CleanedRecord) : DBState :=
  let uniqueVendors := dedupByKey (fun v => v) (df.map (fun r => r.raw.vendor_id)) []
  { s with vendors := uniqueVendors.foldl insertVendorRow s.vendors }

/-- The distinct zone labels of the batch, pickup column first then
dropoff column, first occurrence kept (lines 251-253). -/
def zoneNames (df : List CleanedRecord) : List String :=
  dedupByKey (fun z => z)
    (df.map (fun r => r.pickup_zone) ++ df.map (fun r => r.dropoff_zone)) []

/-- Line 257: the batch rows referencing a zone by either endpoint. -/
def zoneRefs (df : List CleanedRecord) (z : String) : List CleanedRecord :=
  df.filter (fun r => decide (r.pickup_zone = z) || decide (r.dropoff_zone = z))

/-- Line 258: the flattened mean of the two latitude columns of the rows
referencing the zone. -/
def zoneAvgLat (df : List CleanedRecord) (z : String) : ℚ :=
  ((zoneRefs df z).map (fun r => pickupLat r.raw + dropoffLat r.raw)).sum /
    (2 * (zoneRefs df z).length)

/-- Line 259: the flattened mean of the two longitude columns of the rows
referencing the zone. -/
def zoneAvgLon (df : List CleanedRecord) (z : String) : ℚ :=
  ((zoneRefs df z).map (fun r => pickupLon r.raw + dropoffLon r.raw)).sum /
    (2 * (zoneRefs df z).length)

/-- The zone row insert_zones writes for one zone name of the batch. -/
def zoneRowFor (df : List CleanedRecord) (z : String) : ZoneRow :=
  { zone_name := z
    latitude := zoneAvgLat df z
    longitude := zoneAvgLon df z
    trip_count := (zoneRefs df z).length }

/-- One INSERT INTO zones ... ON CONFLICT (zone_name) DO UPDATE: replace
the non-key columns of an existing row, else append a new row. -/
def upsertZone (zs : List ZoneRow) (row : ZoneRow) : List ZoneRow :=
  if zs.any (fun q => decide (q.zone_name = row.zone_name)) then
    zs.map (fun q => if q.zone_name = row.zone_name then row else q)
  else zs ++ [row]

/-- DataProcessor.insert_zones, lines 246-272. -/
def insert_zones (s : DBState) (df : List CleanedRecord) : DBState :=
  { s with zones :=
      (zoneNames df).foldl (fun zs z => upsertZone zs (zoneRowFor df z)) s.zones }

/-- SELECT id FROM zones WHERE zone_name = z: the generated key of the
zone row, modelled by its position in the table. -/
def zoneIdLookup (zs : List ZoneRow) (z : String) : Option ℕ :=
  zs.findIdx? (fun q => decide (q.zone_name = z))

/-- The trips row built for one cleaned record (lines 312-328), with the
zone foreign keys resolved against the zones table. -/
def mkTripRow (zs : List ZoneRow) (r : CleanedRecord) : TripRow :=
  { id := r.raw.id
    vendor_id := r.raw.vendor_id
    pickup_datetime := r.raw.pickup_datetime
    dropoff_datetime := r.raw.dropoff_datetime
    passenger_count := r.raw.passenger_count
    pickup_longitude := r.raw.pickup_longitude
    pickup_latitude := r.raw.pickup_latitude
    dropoff_longitude := r.raw.dropoff_longitude
    dropoff_latitude := r.raw.dropoff_latitude
    store_and_fwd_flag := r.raw.store_and_fwd_flag
    trip_duration := r.raw.trip_duration
    trip_distance_km := r.trip_distance_km
    trip_speed_kmh := r.trip_speed_kmh
    fare_amount := r.fare_amount
    fare_per_km := r.fare_per_km
    pickup_zone_id := zoneIdLookup zs r.pickup_zone
    dropoff_zone_id := zoneIdLookup zs r.dropoff_zone }

/-- One INSERT INTO trips ... ON CONFLICT (id) DO NOTHING. -/
def insertTripRow (ts : List TripRow) (t : TripRow) : List TripRow :=
  if ts.any (fun u => decide (u.id = t.id)) then ts else ts ++ [t]

/-- DataProcessor.insert_trips, lines 274-332.  The commit-per-chunk
batching only bounds work lost on failure; the final table state is the
fold over all rows. -/
def insert_trips (s : DBState) (df : List CleanedRecord) : DBState :=
  { s with trips := df.foldl (fun ts r => insertTripRow ts (mkTripRow s.zones r)) s.trips }

/-- DataProcessor.save_to_database, lines 195-225: vendors, then zones,
then trips. -/
def save_to_database (s : DBState) (df : List CleanedRecord) : DBState :=
  insert_trips (insert_zones (insert_vendors s df) df) df

/-- Reading of the spec sentence of claim C3: the latitude coordinates
mapped to a zone, that is the pickup latitudes of the rows whose pickup
zone is the zone together with the dropoff latitudes of the rows whose
dropoff zone is the zone. -/
def specZoneLats (df : List CleanedRecord) (z : String) : List ℚ :=
  (df.filter (fun r => decide (r.pickup_zone = z))).map (fun r => pickupLat r.raw) ++
    (df.filter (fun r => decide (r.dropoff_zone = z))).map (fun r => dropoffLat r.raw)

/-- Mean latitude over the coordinates mapped to the zone, the value the
spec sentence of claim C3 says insert_zones writes. -/
def specZoneAvgLat (df : List CleanedRecord) (z : String) : ℚ :=
  (specZoneLats df z).sum / (specZoneLats df z).length

/-- Reading of the spec sentence of claim C6: 20 equal-width bins over
the observed min-max range, the value v falling in the right-closed bin
whose index is the ceiling of its scaled offset, minus one. -/
def specBin (mn mx v : ℚ) : ℕ := (⌈(v - mn) * 20 / (mx - mn)⌉ - 1).toNat

/-- Constant distance function used to instantiate the pipeline on
concrete data (the pipeline theorems hold for every distance function). -/
def constDist : DistFn := fun _ _ _ _ => 5

/-- Concrete raw record whose pickup latitude is missing: dropna drops
it silently, without touching excluded_records. -/
def rMissingCoord : RawRecord :=
  { id := "id1"
    vendor_id := 1
    pickup_datetime := some 0
    dropoff_datetime := some 600
    pickup_latitude := none
    pickup_longitude := some (-74)
    dropoff_latitude := some 40.7
    dropoff_longitude := some (-74)
    passenger_count := 1
    trip_duration := 600
    store_and_fwd_flag := "N" }

/-- Concrete raw record behind the cleaned record exTrip. -/
def rawAB : RawRecord :=
  { id := "t1"
    vendor_id := 1
    pickup_datetime := some 0
    dropoff_datetime := some 600
    pickup_latitude := some 40
    pickup_longitude := some 1
    dropoff_latitude := some 41
    dropoff_longitude := some 3
    passenger_count := 1
    trip_duration := 600
    store_and_fwd_flag := "N" }

/-- Concrete cleaned record whose pickup maps to zone ZA and whose
dropoff maps to a different zone ZB. -/
def exTrip : CleanedRecord :=
  { raw := rawAB
    trip_distance_km := 5
    trip_speed_kmh := 30
    fare_amount := 15
    fare_per_km := 3
    pickup_zone := "ZA"
    dropoff_zone := "ZB" }

/-- Concrete one-trip cleaned batch. -/
def exBatch : List CleanedRecord := [exTrip]

/-- Empty database state. -/
def dbEmpty : DBState := { vendors := [], zones := [], trips := [] }

/-! ### Deduplication lemmas -/

lemma dedupByKey_sublist {α β : Type} [DecidableEq β] (key : α → β) :
    ∀ (l : List α) (seen : List β), (dedupByKey key l seen).Sublist l
  | [], _ => List.Sublist.refl []
  | a :: l, seen => by
    simp only [dedupByKey]
    split
    · exact (dedupByKey_sublist key l seen).cons a
    · exact (dedupByKey_sublist key l (key a :: seen)).cons₂ a

lemma mem_dedupByKey {α β : Type} [DecidableEq β] (key : α → β) :
    ∀ (l : List α) (seen : List β) (a : α), a ∈ dedupByKey key l seen →
      key a ∉ seen ∧ l.find? (fun x => decide (key x = key a)) = some a := by
  intro l
  induction l with
  | nil => intro seen a h; simp [dedupByKey] at h
  | cons b l ih =>
    intro seen a h
    simp only [dedupByKey] at h
    by_cases hb : key b ∈ seen
    · rw [if_pos hb] at h
      obtain ⟨hns, hfind⟩ := ih seen a h
      have hne : ¬(key b = key a) := fun he => hns (he ▸ hb)
      refine ⟨hns, ?_⟩
      rw [List.find?_cons_of_neg _ (by simpa using hne)]
      exact hfind
    · rw [if_neg hb] at h
      rcases List.mem_cons.1 h with h | h
      · subst h
        exact ⟨hb, List.find?_cons_of_pos _ (by simp)⟩
      · obtain ⟨hns, hfind⟩ := ih (key b :: seen) a h
        have hne : ¬(key b = key a) := fun he => hns (by simp [he])
        refine ⟨fun hs => hns (List.mem_cons_of_mem _ hs), ?_⟩
        rw [List.find?_cons_of_neg _ (by simpa using hne)]
        exact hfind

lemma nodup_map_dedupByKey {α β : Type} [DecidableEq β] (key : α → β) :
    ∀ (l : List α) (seen : List β), ((dedupByKey key l seen).map key).Nodup := by
  intro l
  induction l with
  | nil => intro seen; simp [dedupByKey]
  | cons b l ih =>
    intro seen
    simp only [dedupByKey]
    split
    · exact ih seen
    · simp only [List.map_cons, List.nodup_cons]
      refine ⟨?_, ih (key b :: seen)⟩
      intro hmem
      obtain ⟨a, ha, hka⟩ := List.mem_map.1 hmem
      obtain ⟨hns, _⟩ := mem_dedupByKey key l (key b :: seen) a ha
      exact hns (by rw [hka]; exact List.mem_cons_self _ _)

/-! ### Cleaning-stage decomposition lemmas -/

lemma clean_data_fst_eq (df : List RawRecord) :
    (clean_data df).1 =
      ((((validRows df).filter (fun r => !invalidDatetime r)).filter
        (fun r => !invalidCoords r)).filter
        (fun r => !invalidDuration r)).filter
        (fun r => !invalidPassengers r) := rfl

lemma validRows_sublist (df : List RawRecord) : (validRows df).Sublist df :=
  (List.filter_sublist _).trans (dedupByKey_sublist _ df [])

lemma clean_data_fst_sublist_validRows (df : List RawRecord) :
    ((clean_data df).1).Sublist (validRows df) := by
  rw [clean_data_fst_eq]
  exact (List.filter_sublist _).trans
    ((List.filter_sublist _).trans ((List.filter_sublist _).trans (List.filter_sublist _)))

lemma clean_data_fst_sublist (df : List RawRecord) : ((clean_data df).1).Sublist df :=
  (clean_data_fst_sublist_validRows df).trans (validRows_sublist df)

lemma mem_validRows {df : List RawRecord} {r : RawRecord} (h : r ∈ validRows df) :
    r ∈ dropDuplicatesById df ∧ hasRequiredFields r = true := by
  have := List.mem_filter.1 h
  exact this

lemma mem_clean_data {df : List RawRecord} {r : RawRecord} (h : r ∈ (clean_data df).1) :
    r ∈ validRows df ∧ invalidDatetime r = false ∧ invalidCoords r = false ∧
      invalidDuration r = false ∧ invalidPassengers r = false := by
  rw [clean_data_fst_eq] at h
  simp only [List.mem_filter, Bool.not_eq_true'] at h
  tauto

lemma calc_derived_fst (distFn : DistFn) (df : List RawRecord) :
    (calculate_derived_features distFn df).1 =
      (df.filter (fun r => !invalidSpeed distFn r)).map
        (fun r => mkCleaned distFn (df.filter (fun r => !invalidSpeed distFn r)) r) := rfl

lemma mem_calc_derived {distFn : DistFn} {df : List RawRecord} {c : CleanedRecord}
    (h : c ∈ (calculate_derived_features distFn df).1) :
    c.raw ∈ df ∧ invalidSpeed distFn c.raw = false ∧
      c.trip_distance_km = tripDistance distFn c.raw ∧
      c.trip_speed_kmh = tripSpeed distFn c.raw ∧
      c.fare_amount = fareAmount distFn c.raw ∧
      c.fare_per_km = farePerKm distFn c.raw := by
  rw [calc_derived_fst] at h
  obtain ⟨r, hr, hc⟩ := List.mem_map.1 h
  obtain ⟨hmem, hspeed⟩ := List.mem_filter.1 hr
  subst hc
  simp only [Bool.not_eq_true'] at hspeed
  exact ⟨hmem, hspeed, rfl, rfl, rfl, rfl⟩

lemma calc_derived_map_raw (distFn : DistFn) (df : List RawRecord) :
    ((calculate_derived_features distFn df).1).map (fun c => c.raw) =
      df.filter (fun r => !invalidSpeed distFn r) := by
  rw [calc_derived_fst, List.map_map]
  have h : ((fun c : CleanedRecord => c.raw) ∘
      (fun r => mkCleaned distFn (df.filter (fun r => !invalidSpeed distFn r)) r)) =
      fun r : RawRecord => r := rfl
  rw [h]
  exact List.map_id _

/-! ### Boolean filter value lemmas -/

lemma invalidDatetime_eq_false {r : RawRecord} {p d : Int}
    (hp : r.pickup_datetime = some p) (hd : r.dropoff_datetime = some d)
    (h : invalidDatetime r = false) : p < d := by
  unfold invalidDatetime at h
  rw [hp, hd] at h
  simpa using h

lemma optLt_eq_false {x : Option ℚ} {v c : ℚ} (hx : x = some v)
    (h : optLt x c = false) : c ≤ v := by
  unfold optLt at h
  rw [hx] at h
  simpa using h

lemma optGt_eq_false {x : Option ℚ} {v c : ℚ} (hx : x = some v)
    (h : optGt x c = false) : v ≤ c := by
  unfold optGt at h
  rw [hx] at h
  simpa using h

lemma invalidCoords_split {r : RawRecord} (h : invalidCoords r = false) :
    optLt r.pickup_latitude latMin = false ∧ optGt r.pickup_latitude latMax = false ∧
    optLt r.pickup_longitude lonMin = false ∧ optGt r.pickup_longitude lonMax = false ∧
    optLt r.dropoff_latitude latMin = false ∧ optGt r.dropoff_latitude latMax = false ∧
    optLt r.dropoff_longitude lonMin = false ∧ optGt r.dropoff_longitude lonMax = false := by
  unfold invalidCoords at h
  simp only [Bool.or_eq_false_iff] at h
  tauto

lemma invalidDuration_eq_false {r : RawRecord} (h : invalidDuration r = false) :
    60 ≤ r.trip_duration ∧ r.trip_duration ≤ 21600 := by
  unfold invalidDuration at h
  simp only [Bool.or_eq_false_iff, decide_eq_false_iff_not, not_lt, gt_iff_lt] at h
  exact ⟨h.2, h.1⟩

lemma invalidPassengers_eq_false {r : RawRecord} (h : invalidPassengers r = false) :
    1 ≤ r.passenger_count ∧ r.passenger_count ≤ 6 := by
  unfold invalidPassengers at h
  simp only [Bool.or_eq_false_iff, decide_eq_false_iff_not, not_lt, gt_iff_lt] at h
  exact ⟨h.1, h.2⟩

lemma invalidSpeed_eq_false {distFn : DistFn} {r : RawRecord}
    (h : invalidSpeed distFn r = false) :
    1 ≤ tripSpeed distFn r ∧ tripSpeed distFn r ≤ 200 := by
  unfold invalidSpeed at h
  simp only [Bool.or_eq_false_iff, decide_eq_false_iff_not, not_lt, gt_iff_lt] at h
  exact ⟨h.2, h.1⟩

lemma hasRequiredFields_split {r : RawRecord} (h : hasRequiredFields r = true) :
    (∃ p, r.pickup_datetime = some p) ∧ (∃ d, r.dropoff_datetime = some d) ∧
    (∃ v, r.pickup_latitude = some v) ∧ (∃ v, r.pickup_longitude = some v) ∧
    (∃ v, r.dropoff_latitude = some v) ∧ (∃ v, r.dropoff_longitude = some v) := by
  unfold hasRequiredFields at h
  simp only [Bool.and_eq_true, Option.isSome_iff_exists] at h
  tauto

/-! ### Claim C1 -/

/-- C1: every record in the cleaned output of clean_data followed by
calculate_derived_features satisfies all validity bounds: dropoff after
pickup, all four coordinates inside the NYC bounding box, duration in
[60, 21600] seconds, passenger count in [1, 6] and speed in [1, 200]
km/h.  The bounds hold for every distance function the pipeline could
use, in particular for the Haversine distance. -/
theorem C1_cleaned_output_within_bounds (distFn : DistFn) (df : List RawRecord) :
    (cleanPipeline distFn df).1.Forall (fun c =>
      hasRequiredFields c.raw = true ∧
      c.raw.pickup_datetime.getD 0 < c.raw.dropoff_datetime.getD 0 ∧
      latMin ≤ pickupLat c.raw ∧ pickupLat c.raw ≤ latMax ∧
      lonMin ≤ pickupLon c.raw ∧ pickupLon c.raw ≤ lonMax ∧
      latMin ≤ dropoffLat c.raw ∧ dropoffLat c.raw ≤ latMax ∧
      lonMin ≤ dropoffLon c.raw ∧ dropoffLon c.raw ≤ lonMax ∧
      60 ≤ c.raw.trip_duration ∧ c.raw.trip_duration ≤ 21600 ∧
      1 ≤ c.raw.passenger_count ∧ c.raw.passenger_count ≤ 6 ∧
      1 ≤ c.trip_speed_kmh ∧ c.trip_speed_kmh ≤ 200) := by
  rw [List.forall_iff_forall_mem]
  intro c hc
  have hc2 : c ∈ (calculate_derived_features distFn (clean_data df).1).1 := hc
  obtain ⟨hmem, hsp, _, hspeedeq, _, _⟩ := mem_calc_derived hc2
  obtain ⟨hval, hdt, hco, hdu, hpa⟩ := mem_clean_data hmem
  obtain ⟨_, hreq⟩ := mem_validRows hval
  obtain ⟨⟨p, hp⟩, ⟨d, hd⟩, ⟨v1, h1⟩, ⟨v2, h2⟩, ⟨v3, h3⟩, ⟨v4, h4⟩⟩ :=
    hasRequiredFields_split hreq
  obtain ⟨hc1, hc2b, hc3, hc4, hc5, hc6, hc7, hc8⟩ := invalidCoords_split hco
  obtain ⟨hdu1, hdu2⟩ := invalidDuration_eq_false hdu
  obtain ⟨hpa1, hpa2⟩ := invalidPassengers_eq_false hpa
  obtain ⟨hsp1, hsp2⟩ := invalidSpeed_eq_false hsp
  refine ⟨hreq, ?_, ?_, ?_, ?_, ?_, ?_, ?_, ?_, ?_, hdu1, hdu2, hpa1, hpa2, ?_, ?_⟩
  · rw [hp, hd, Option.getD_some, Option.getD_some]
    exact invalidDatetime_eq_false hp hd hdt
  · rw [pickupLat, h1, Option.getD_some]; exact optLt_eq_false h1 hc1
  · rw [pickupLat, h1, Option.getD_some]; exact optGt_eq_false h1 hc2b
  · rw [pickupLon, h2, Option.getD_some]; exact optLt_eq_false h2 hc3
  · rw [pickupLon, h2, Option.getD_some]; exact optGt_eq_false h2 hc4
  · rw [dropoffLat, h3, Option.getD_some]; exact optLt_eq_false h3 hc5
  · rw [dropoffLat, h3, Option.getD_some]; exact optGt_eq_false h3 hc6
  · rw [dropoffLon, h4, Option.getD_some]; exact optLt_eq_false h4 hc7
  · rw [dropoffLon, h4, Option.getD_some]; exact optGt_eq_false h4 hc8
  · rw [hspeedeq]; exact hsp1
  · rw [hspeedeq]; exact hsp2

/-! ### Claim C4 -/

/-- C4: for every record in the cleaned output, fare_amount equals
round(2.50 + 1.50 * trip_distance_km + 0.50 * (trip_duration / 60), 2),
where trip_distance_km is the distance function of the pipeline (the
Haversine distance in the code) applied to the record's pickup and
dropoff coordinates. -/
theorem C4_fare_amount_formula (distFn : DistFn) (df : List RawRecord) :
    (cleanPipeline distFn df).1.Forall (fun c =>
      c.fare_amount =
        round2 (2.50 + 1.50 * c.trip_distance_km + 0.50 * (c.raw.trip_duration / 60)) ∧
      c.trip_distance_km =
        distFn (pickupLat c.raw) (pickupLon c.raw) (dropoffLat c.raw) (dropoffLon c.raw)) := by
  rw [List.forall_iff_forall_mem]
  intro c hc
  have hc2 : c ∈ (calculate_derived_features distFn (clean_data df).1).1 := hc
  obtain ⟨_, _, hdist, _, hfare, _⟩ := mem_calc_derived hc2
  refine ⟨?_, hdist⟩
  rw [hfare, hdist, fareAmount]
  exact congrArg round2 (by ring)

/-! ### Claim C7 -/

/-- C7: fare_per_km divides fare_amount by trip_distance_km with no
zero guard, but every record surviving the speed filter inside the
pipeline (speed at least 1 km/h, with trip_duration at least 60 s from
the duration filter) has trip_distance_km at least 1/60 km, hence
nonzero, so the division is never by zero at the point where
fare_per_km is computed. -/
theorem C7_fare_per_km_division_unreachable (distFn : DistFn) (df : List RawRecord) :
    (cleanPipeline distFn df).1.Forall (fun c =>
      (1 : ℚ) / 60 ≤ c.trip_distance_km ∧ c.trip_distance_km ≠ 0 ∧
      c.fare_per_km = round2 (c.fare_amount / c.trip_distance_km)) := by
  rw [List.forall_iff_forall_mem]
  intro c hc
  have hc2 : c ∈ (calculate_derived_features distFn (clean_data df).1).1 := hc
  obtain ⟨hmem, hsp, hdist, _, hfare, hfpk⟩ := mem_calc_derived hc2
  obtain ⟨_, _, _, hdu, _⟩ := mem_clean_data hmem
  obtain ⟨hdu1, _⟩ := invalidDuration_eq_false hdu
  obtain ⟨hsp1, _⟩ := invalidSpeed_eq_false hsp
  have hpos : (0 : ℚ) < c.raw.trip_duration / 3600 := by
    have : (0 : ℚ) < c.raw.trip_duration := lt_of_lt_of_le (by norm_num) hdu1
    positivity
  have hge : c.raw.trip_duration / 3600 ≤ tripDistance distFn c.raw := by
    have := (one_le_div hpos).1 (by rw [tripSpeed] at hsp1; exact hsp1)
    exact this
  have hlow : (1 : ℚ) / 60 ≤ c.raw.trip_duration / 3600 := by linarith
  have hmain : (1 : ℚ) / 60 ≤ c.trip_distance_km := by
    rw [hdist]; exact le_trans hlow hge
  refine ⟨hmain, ?_, ?_⟩
  · have : (0 : ℚ) < c.trip_distance_km := lt_of_lt_of_le (by norm_num) hmain
    exact ne_of_gt this
  · rw [hfpk, farePerKm, ← hfare, ← hdist]

/-! ### Claim C10 -/

/-- C10: clean_data and calculate_derived_features each return a
subsequence of their input rows: surviving records keep their original
field values (the derived stage only adds the derived columns, its raw
projection is the input row itself), no new records appear, and the
relative input order is preserved. -/
theorem C10_stages_return_subsequences (distFn : DistFn) (df : List RawRecord) :
    ((clean_data df).1).Sublist df ∧
    (((calculate_derived_features distFn df).1).map (fun c => c.raw)).Sublist df := by
  refine ⟨clean_data_fst_sublist df, ?_⟩
  rw [calc_derived_map_raw]
  exact List.filter_sublist _

/-! ### Claim C8 -/

/-- C8: the cleaned output never contains two records with the same
identifier, and every surviving record is the first occurrence of its
identifier in the raw input. -/
theorem C8_ids_unique_first_occurrence (distFn : DistFn) (df : List RawRecord) :
    (((cleanPipeline distFn df).1).map (fun c => c.raw.id)).Nodup ∧
    (cleanPipeline distFn df).1.Forall (fun c =>
      df.find? (fun x => decide (x.id = c.raw.id)) = some c.raw) := by
  constructor
  · have hids : ((cleanPipeline distFn df).1).map (fun c => c.raw.id) =
        (((cleanPipeline distFn df).1).map (fun c => c.raw)).map (fun r => r.id) :=
      (List.map_map _ _ _).symm
    have hsub : (((cleanPipeline distFn df).1).map (fun c => c.raw)).Sublist
        (dropDuplicatesById df) := by
      have h1 : ((cleanPipeline distFn df).1).map (fun c => c.raw) =
          ((clean_data df).1).filter (fun r => !invalidSpeed distFn r) :=
        calc_derived_map_raw distFn (clean_data df).1
      rw [h1]
      exact (List.filter_sublist _).trans
        ((clean_data_fst_sublist_validRows df).trans (List.filter_sublist _))
    rw [hids]
    exact (nodup_map_dedupByKey (fun r => r.id) df []).sublist
      (hsub.map (fun r => r.id))
  · rw [List.forall_iff_forall_mem]
    intro c hc
    have hc2 : c ∈ (calculate_derived_features distFn (clean_data df).1).1 := hc
    obtain ⟨hmem, _, _, _, _, _⟩ := mem_calc_derived hc2
    obtain ⟨hval, _, _, _, _⟩ := mem_clean_data hmem
    obtain ⟨hdup, _⟩ := mem_validRows hval
    have hdup2 : c.raw ∈ dedupByKey (fun r => r.id) df [] := hdup
    exact (mem_dedupByKey (fun r => r.id) df [] c.raw hdup2).2

/-! ### Claim C9 -/

lemma sin_sq_sub_swap (x y : ℝ) :
    Real.sin ((x - y) / 2) ^ 2 = Real.sin ((y - x) / 2) ^ 2 := by
  rw [show (x - y) / 2 = -((y - x) / 2) by ring, Real.sin_neg]
  ring

/-- C9: the Haversine distance of the pipeline (Earth radius 6371 km,
degree inputs converted to radians) is zero between identical
coordinate pairs and is symmetric in its two coordinate pairs. -/
theorem C9_haversine_zero_and_symmetric :
    (∀ la lo : ℝ, haversine_distance la lo la lo = 0) ∧
    (∀ la1 lo1 la2 lo2 : ℝ,
      haversine_distance la1 lo1 la2 lo2 = haversine_distance la2 lo2 la1 lo1) := by
  constructor
  · intro la lo
    simp [haversine_distance]
  · intro la1 lo1 la2 lo2
    simp only [haversine_distance]
    rw [sin_sq_sub_swap (la2 * (Real.pi / 180)) (la1 * (Real.pi / 180)),
      sin_sq_sub_swap (lo2 * (Real.pi / 180)) (lo1 * (Real.pi / 180)),
      mul_comm (Real.cos (la1 * (Real.pi / 180))) (Real.cos (la2 * (Real.pi / 180)))]

/-! ### Claim C2 -/

lemma cleanPipeline_fst (distFn : DistFn) (df : List RawRecord) :
    (cleanPipeline distFn df).1 = (calculate_derived_features distFn (clean_data df).1).1 := rfl

lemma cleanPipeline_snd (distFn : DistFn) (df : List RawRecord) :
    (cleanPipeline distFn df).2 =
      (clean_data df).2 ++ (calculate_derived_features distFn (clean_data df).1).2 := rfl

lemma clean_data_snd_eq (df : List RawRecord) :
    (clean_data df).2 =
      ((validRows df).filter (fun r => invalidDatetime r)).map (fun r => r.id) ++
      (((validRows df).filter (fun r => !invalidDatetime r)).filter
        (fun r => invalidCoords r)).map (fun r => r.id) ++
      ((((validRows df).filter (fun r => !invalidDatetime r)).filter
        (fun r => !invalidCoords r)).filter (fun r => invalidDuration r)).map (fun r => r.id) ++
      (((((validRows df).filter (fun r => !invalidDatetime r)).filter
        (fun r => !invalidCoords r)).filter (fun r => !invalidDuration r)).filter
        (fun r => invalidPassengers r)).map (fun r => r.id) := rfl

lemma calc_derived_snd (distFn : DistFn) (df : List RawRecord) :
    (calculate_derived_features distFn df).2 =
      (df.filter (fun r => invalidSpeed distFn r)).map (fun r => r.id) := rfl

lemma nodup_validRows_ids (df : List RawRecord) :
    ((validRows df).map (fun r => r.id)).Nodup := by
  have hsub : (validRows df).Sublist (dedupByKey (fun r => r.id) df []) :=
    List.filter_sublist _
  exact (nodup_map_dedupByKey (fun r => r.id) df []).sublist (hsub.map (fun r => r.id))

lemma validRows_id_inj {df : List RawRecord} {r s : RawRecord}
    (hr : r ∈ validRows df) (hs : s ∈ validRows df) (h : r.id = s.id) : r = s :=
  List.inj_on_of_nodup_map (nodup_validRows_ids df) hr hs h

lemma mem_clean_data_intro {df : List RawRecord} {r : RawRecord} (h : r ∈ validRows df)
    (h1 : invalidDatetime r = false) (h2 : invalidCoords r = false)
    (h3 : invalidDuration r = false) (h4 : invalidPassengers r = false) :
    r ∈ (clean_data df).1 := by
  rw [clean_data_fst_eq]
  simp only [List.mem_filter, Bool.not_eq_true']
  exact ⟨⟨⟨⟨h, h1⟩, h2⟩, h3⟩, h4⟩

lemma mem_output_of_all_false {distFn : DistFn} {df : List RawRecord} {r : RawRecord}
    (h : r ∈ (clean_data df).1) (h5 : invalidSpeed distFn r = false) :
    ∃ c ∈ (cleanPipeline distFn df).1, c.raw = r := by
  rw [cleanPipeline_fst, calc_derived_fst]
  refine ⟨mkCleaned distFn (((clean_data df).1).filter (fun x => !invalidSpeed distFn x)) r,
    List.mem_map.2 ⟨r, List.mem_filter.2 ⟨h, by simp [h5]⟩, rfl⟩, rfl⟩

/-- C2 counterexample: a batch with one record whose pickup latitude is
missing.  dropna drops that record silently, so its identifier is
present in the input, absent from the cleaned output, and yet the
exclusion ledger of the run is empty: the set of dropped ids is not the
set of ids appended to the ledger. -/
theorem C2_counterexample :
    "id1" ∈ [rMissingCoord].map (fun r => r.id) ∧
    "id1" ∉ ((cleanPipeline constDist [rMissingCoord]).1).map (fun c => c.raw.id) ∧
    (cleanPipeline constDist [rMissingCoord]).2 = [] := by
  have h : cleanPipeline constDist [rMissingCoord] = ([], []) := rfl
  rw [h]
  refine ⟨?_, ?_, rfl⟩
  · simp [rMissingCoord]
  · simp

/-- C2 amended: the identifiers appended to the ledger during a run are
exactly the identifiers that survive the silent deduplication and
missing-field steps but are dropped by one of the five ledger-recording
filters; equivalently, the ledger equals the set of ids present after
those two silent steps and absent from the cleaned output.  Records
dropped as duplicates or for missing required fields are not recorded. -/
theorem C2_amended_ledger_matches_filter_drops (distFn : DistFn) (df : List RawRecord)
    (i : String) :
    i ∈ (cleanPipeline distFn df).2 ↔
      (i ∈ (validRows df).map (fun r => r.id) ∧
       i ∉ ((cleanPipeline distFn df).1).map (fun c => c.raw.id)) := by
  constructor
  · intro h
    rw [cleanPipeline_snd, clean_data_snd_eq, calc_derived_snd] at h
    simp only [List.mem_append, List.mem_map, List.mem_filter, Bool.not_eq_true'] at h
    -- extract the record and the Boolean facts of its dropping stage
    have key : ∃ r, r ∈ validRows df ∧ r.id = i ∧
        (invalidDatetime r = true ∨ invalidCoords r = true ∨ invalidDuration r = true ∨
         invalidPassengers r = true ∨ invalidSpeed distFn r = true) := by
      rcases h with (((⟨r, ⟨hv, hb⟩, hid⟩ | ⟨r, ⟨⟨hv, _⟩, hb⟩, hid⟩) |
          ⟨r, ⟨⟨⟨hv, _⟩, _⟩, hb⟩, hid⟩) | ⟨r, ⟨⟨⟨⟨hv, _⟩, _⟩, _⟩, hb⟩, hid⟩) |
          ⟨r, ⟨hv, hb⟩, hid⟩
      · exact ⟨r, hv, hid, Or.inl hb⟩
      · exact ⟨r, hv, hid, Or.inr (Or.inl hb)⟩
      · exact ⟨r, hv, hid, Or.inr (Or.inr (Or.inl hb))⟩
      · exact ⟨r, hv, hid, Or.inr (Or.inr (Or.inr (Or.inl hb)))⟩
      · exact ⟨r, (mem_clean_data hv).1, hid, Or.inr (Or.inr (Or.inr (Or.inr hb)))⟩
    obtain ⟨r, hv, hid, hdrop⟩ := key
    refine ⟨List.mem_map.2 ⟨r, hv, hid⟩, ?_⟩
    intro hout
    obtain ⟨c, hc, hcid⟩ := List.mem_map.1 hout
    have hc2 : c ∈ (calculate_derived_features distFn (clean_data df).1).1 := hc
    obtain ⟨hcm, hcsp, _, _, _, _⟩ := mem_calc_derived hc2
    obtain ⟨hcv, hcdt, hcco, hcdu, hcpa⟩ := mem_clean_data hcm
    have heq : r = c.raw := validRows_id_inj hv hcv (by rw [hid, hcid])
    rcases hdrop with hb | hb | hb | hb | hb <;> rw [heq] at hb
    · rw [hcdt] at hb; exact Bool.false_ne_true hb
    · rw [hcco] at hb; exact Bool.false_ne_true hb
    · rw [hcdu] at hb; exact Bool.false_ne_true hb
    · rw [hcpa] at hb; exact Bool.false_ne_true hb
    · rw [hcsp] at hb; exact Bool.false_ne_true hb
  · rintro ⟨hin, hout⟩
    obtain ⟨r, hv, hid⟩ := List.mem_map.1 hin
    rw [cleanPipeline_snd, clean_data_snd_eq, calc_derived_snd]
    simp only [List.mem_append, List.mem_map, List.mem_filter, Bool.not_eq_true']
    cases hdt : invalidDatetime r with
    | true => exact Or.inl (Or.inl (Or.inl (Or.inl ⟨r, ⟨hv, hdt⟩, hid⟩)))
    | false =>
    cases hco : invalidCoords r with
    | true => exact Or.inl (Or.inl (Or.inl (Or.inr ⟨r, ⟨⟨hv, hdt⟩, hco⟩, hid⟩)))
    | false =>
    cases hdu : invalidDuration r with
    | true => exact Or.inl (Or.inl (Or.inr ⟨r, ⟨⟨⟨hv, hdt⟩, hco⟩, hdu⟩, hid⟩))
    | false =>
    cases hpa : invalidPassengers r with
    | true => exact Or.inl (Or.inr ⟨r, ⟨⟨⟨⟨hv, hdt⟩, hco⟩, hdu⟩, hpa⟩, hid⟩)
    | false =>
    cases hsp : invalidSpeed distFn r with
    | true => exact Or.inr ⟨r, ⟨mem_clean_data_intro hv hdt hco hdu hpa, hsp⟩, hid⟩
    | false =>
      exfalso
      obtain ⟨c, hc, hcraw⟩ :=
        mem_output_of_all_false (mem_clean_data_intro hv hdt hco hdu hpa) hsp
      exact hout (List.mem_map.2 ⟨c, hc, by rw [hcraw, hid]⟩)

/-! ### Zones upsert lemmas -/

lemma find?_map_replace (row : ZoneRow) :
    ∀ zs : List ZoneRow,
      zs.any (fun q => decide (q.zone_name = row.zone_name)) = true →
      (zs.map (fun q => if q.zone_name = row.zone_name then row else q)).find?
        (fun q => decide (q.zone_name = row.zone_name)) = some row := by
  intro zs
  induction zs with
  | nil => intro h; simp at h
  | cons q zs ih =>
    intro h
    by_cases hq : q.zone_name = row.zone_name
    · simp only [List.map_cons, if_pos hq]
      rw [List.find?_cons_of_pos _ (by simp)]
    · simp only [List.map_cons, if_neg hq]
      rw [List.find?_cons_of_neg _ (by simpa using hq)]
      apply ih
      simpa [List.any_cons, hq] using h

lemma find?_upsertZone_self (zs : List ZoneRow) (row : ZoneRow) :
    (upsertZone zs row).find? (fun q => decide (q.zone_name = row.zone_name)) = some row := by
  unfold upsertZone
  split
  · exact find?_map_replace row zs (by assumption)
  · rename_i h
    have hall : ∀ q ∈ zs, decide (q.zone_name = row.zone_name) = false := by
      intro q hq
      by_contra hne
      exact h (List.any_eq_true.2 ⟨q, hq, by simpa using hne⟩)
    have hnone : zs.find? (fun q => decide (q.zone_name = row.zone_name)) = none := by
      rw [List.find?_eq_none]
      intro q hq
      simp [hall q hq]
    rw [List.find?_append, hnone]
    simp

lemma find?_map_replace_other {z : String} (row : ZoneRow) (hne : row.zone_name ≠ z) :
    ∀ zs : List ZoneRow,
      (zs.map (fun q => if q.zone_name = row.zone_name then row else q)).find?
        (fun q => decide (q.zone_name = z)) =
      zs.find? (fun q => decide (q.zone_name = z)) := by
  intro zs
  induction zs with
  | nil => rfl
  | cons q zs ih =>
    simp only [List.map_cons]
    by_cases hq : q.zone_name = row.zone_name
    · rw [if_pos hq]
      rw [List.find?_cons_of_neg _ (by simpa using hne),
        List.find?_cons_of_neg _ (by simp only [decide_eq_true_eq, hq]; exact hne)]
      exact ih
    · rw [if_neg hq]
      by_cases hqz : q.zone_name = z
      · rw [List.find?_cons_of_pos _ (by simpa using hqz),
          List.find?_cons_of_pos _ (by simpa using hqz)]
      · rw [List.find?_cons_of_neg _ (by simpa using hqz),
          List.find?_cons_of_neg _ (by simpa using hqz)]
        exact ih

lemma find?_upsertZone_other {z : String} (zs : List ZoneRow) (row : ZoneRow)
    (hne : row.zone_name ≠ z) :
    (upsertZone zs row).find? (fun q => decide (q.zone_name = z)) =
      zs.find? (fun q => decide (q.zone_name = z)) := by
  unfold upsertZone
  split
  · exact find?_map_replace_other row hne zs
  · rw [List.find?_append]
    have hrow : List.find? (fun q => decide (q.zone_name = z)) [row] = none := by
      rw [List.find?_eq_none]
      intro q hq
      rw [List.mem_singleton.1 hq]
      simpa using hne
    rw [hrow]
    cases zs.find? (fun q => decide (q.zone_name = z)) <;> rfl

lemma find?_foldl_upsert_not_mem (df : List CleanedRecord) {z : String} :
    ∀ (names : List String) (zs : List ZoneRow), z ∉ names →
      ((names.foldl (fun zs n => upsertZone zs (zoneRowFor df n)) zs).find?
        (fun q => decide (q.zone_name = z))) =
      zs.find? (fun q => decide (q.zone_name = z)) := by
  intro names
  induction names with
  | nil => intro zs _; rfl
  | cons n names ih =>
    intro zs h
    rw [List.foldl_cons, ih _ (fun hm => h (List.mem_cons_of_mem _ hm))]
    refine find?_upsertZone_other zs (zoneRowFor df n) ?_
    intro he
    have hn : n = z := he
    exact h (hn ▸ List.mem_cons_self n names)

lemma find?_foldl_upsert_mem (df : List CleanedRecord) {z : String} :
    ∀ (names : List String) (zs : List ZoneRow), names.Nodup → z ∈ names →
      ((names.foldl (fun zs n => upsertZone zs (zoneRowFor df n)) zs).find?
        (fun q => decide (q.zone_name = z))) = some (zoneRowFor df z) := by
  intro names
  induction names with
  | nil => intro zs _ h; simp at h
  | cons n names ih =>
    intro zs hnd hz
    rw [List.foldl_cons]
    rcases List.mem_cons.1 hz with he | hm
    · subst he
      have hnotin : z ∉ names := (List.nodup_cons.1 hnd).1
      rw [find?_foldl_upsert_not_mem df names _ hnotin]
      exact find?_upsertZone_self zs (zoneRowFor df z)
    · exact ih _ (List.nodup_cons.1 hnd).2 hm

lemma zoneNames_nodup (df : List CleanedRecord) : (zoneNames df).Nodup := by
  have h := nodup_map_dedupByKey (fun z : String => z)
    (df.map (fun r => r.pickup_zone) ++ df.map (fun r => r.dropoff_zone)) []
  simpa [zoneNames] using h

lemma save_to_database_zones (s : DBState) (df : List CleanedRecord) :
    (save_to_database s df).zones =
      (zoneNames df).foldl (fun zs z => upsertZone zs (zoneRowFor df z))
        (insert_vendors s df).zones := rfl

lemma insert_zones_zones (s : DBState) (df : List CleanedRecord) :
    (insert_zones s df).zones =
      (zoneNames df).foldl (fun zs z => upsertZone zs (zoneRowFor df z)) s.zones := rfl

/-! ### Vendors and trips insert lemmas -/

lemma insertVendorRow_mem (vs : List (Int × String)) (vid : Int) :
    ∃ p ∈ insertVendorRow vs vid, p.1 = vid := by
  unfold insertVendorRow
  split
  · rename_i h
    obtain ⟨p, hp, hdp⟩ := List.any_eq_true.1 h
    exact ⟨p, hp, by simpa using hdp⟩
  · exact ⟨(vid, "Vendor_" ++ toString vid),
      List.mem_append.2 (Or.inr (List.mem_singleton.2 rfl)), rfl⟩

lemma insertVendorRow_preserve {vs : List (Int × String)} {w : Int}
    (h : ∃ p ∈ vs, p.1 = w) (vid : Int) :
    ∃ p ∈ insertVendorRow vs vid, p.1 = w := by
  unfold insertVendorRow
  split
  · exact h
  · obtain ⟨p, hp, he⟩ := h
    exact ⟨p, List.mem_append.2 (Or.inl hp), he⟩

lemma insertVendorRow_of_mem {vs : List (Int × String)} {vid : Int}
    (h : ∃ p ∈ vs, p.1 = vid) : insertVendorRow vs vid = vs := by
  unfold insertVendorRow
  rw [if_pos]
  obtain ⟨p, hp, he⟩ := h
  exact List.any_eq_true.2 ⟨p, hp, by simpa using he⟩

lemma foldl_vendors_preserve (names : List Int) :
    ∀ (vs : List (Int × String)) {w : Int}, (∃ p ∈ vs, p.1 = w) →
      ∃ p ∈ names.foldl insertVendorRow vs, p.1 = w := by
  induction names with
  | nil => intro vs w h; exact h
  | cons n names ih =>
    intro vs w h
    rw [List.foldl_cons]
    exact ih _ (insertVendorRow_preserve h n)

lemma foldl_vendors_mem (names : List Int) :
    ∀ (vs : List (Int × String)) (v : Int), v ∈ names →
      ∃ p ∈ names.foldl insertVendorRow vs, p.1 = v := by
  induction names with
  | nil => intro vs v h; simp at h
  | cons n names ih =>
    intro vs v h
    rw [List.foldl_cons]
    rcases List.mem_cons.1 h with he | hm
    · subst he
      exact foldl_vendors_preserve names _ (insertVendorRow_mem vs v)
    · exact ih _ v hm

lemma foldl_vendors_id (names : List Int) :
    ∀ vs : List (Int × String), (∀ v ∈ names, ∃ p ∈ vs, p.1 = v) →
      names.foldl insertVendorRow vs = vs := by
  induction names with
  | nil => intro vs _; rfl
  | cons n names ih =>
    intro vs h
    rw [List.foldl_cons, insertVendorRow_of_mem (h n (List.mem_cons_self _ _))]
    exact ih vs (fun v hv => h v (List.mem_cons_of_mem _ hv))

lemma insertTripRow_mem (ts : List TripRow) (t : TripRow) :
    ∃ u ∈ insertTripRow ts t, u.id = t.id := by
  unfold insertTripRow
  split
  · rename_i h
    obtain ⟨u, hu, hdu⟩ := List.any_eq_true.1 h
    exact ⟨u, hu, by simpa using hdu⟩
  · exact ⟨t, List.mem_append.2 (Or.inr (List.mem_singleton.2 rfl)), rfl⟩

lemma insertTripRow_preserve {ts : List TripRow} {w : String}
    (h : ∃ u ∈ ts, u.id = w) (t : TripRow) :
    ∃ u ∈ insertTripRow ts t, u.id = w := by
  unfold insertTripRow
  split
  · exact h
  · obtain ⟨u, hu, he⟩ := h
    exact ⟨u, List.mem_append.2 (Or.inl hu), he⟩

lemma insertTripRow_of_mem {ts : List TripRow} {t : TripRow}
    (h : ∃ u ∈ ts, u.id = t.id) : insertTripRow ts t = ts := by
  unfold insertTripRow
  rw [if_pos]
  obtain ⟨u, hu, he⟩ := h
  exact List.any_eq_true.2 ⟨u, hu, by simpa using he⟩

lemma foldl_trips_preserve (df : List CleanedRecord) (zs : List ZoneRow) :
    ∀ (ts : List TripRow) {w : String}, (∃ u ∈ ts, u.id = w) →
      ∃ u ∈ df.foldl (fun ts r => insertTripRow ts (mkTripRow zs r)) ts, u.id = w := by
  induction df with
  | nil => intro ts w h; exact h
  | cons r df ih =>
    intro ts w h
    rw [List.foldl_cons]
    exact ih _ (insertTripRow_preserve h _)

lemma foldl_trips_mem (df : List CleanedRecord) (zs : List ZoneRow) :
    ∀ (ts : List TripRow) (r : CleanedRecord), r ∈ df →
      ∃ u ∈ df.foldl (fun ts r => insertTripRow ts (mkTripRow zs r)) ts,
        u.id = r.raw.id := by
  induction df with
  | nil => intro ts r h; simp at h
  | cons q df ih =>
    intro ts r h
    rw [List.foldl_cons]
    rcases List.mem_cons.1 h with he | hm
    · subst he
      exact foldl_trips_preserve df zs _ (insertTripRow_mem ts (mkTripRow zs r))
    · exact ih _ r hm

lemma foldl_trips_id (df : List CleanedRecord) (zs : List ZoneRow) :
    ∀ ts : List TripRow, (∀ r ∈ df, ∃ u ∈ ts, u.id = r.raw.id) →
      df.foldl (fun ts r => insertTripRow ts (mkTripRow zs r)) ts = ts := by
  induction df with
  | nil => intro ts _; rfl
  | cons r df ih =>
    intro ts h
    rw [List.foldl_cons, insertTripRow_of_mem (h r (List.mem_cons_self _ _))]
    exact ih ts (fun q hq => h q (List.mem_cons_of_mem _ hq))

lemma save_to_database_trips (s : DBState) (df : List CleanedRecord) :
    (save_to_database s df).trips =
      df.foldl (fun ts r =>
        insertTripRow ts (mkTripRow ((insert_zones (insert_vendors s df) df).zones) r))
        s.trips := rfl

lemma save_to_database_vendors (s : DBState) (df : List CleanedRecord) :
    (save_to_database s df).vendors =
      (dedupByKey (fun v => v) (df.map (fun r => r.raw.vendor_id)) []).foldl
        insertVendorRow s.vendors := rfl

/-! ### Claim C3 -/

/-- C3 counterexample: a single-trip batch whose pickup maps to zone ZA
and whose dropoff maps to zone ZB, with pickup latitude 40 and dropoff
latitude 41.  insert_zones writes latitude (40 + 41) / 2 = 81/2 for ZA
(the flattened mean over both endpoints of every trip referencing ZA),
while the mean of the coordinates mapped to ZA is 40: the claimed value
differs from the written one. -/
theorem C3_counterexample :
    ((insert_zones dbEmpty exBatch).zones).find?
        (fun q => decide (q.zone_name = "ZA")) = some (zoneRowFor exBatch "ZA") ∧
    (zoneRowFor exBatch "ZA").latitude = 81 / 2 ∧
    specZoneAvgLat exBatch "ZA" = 40 ∧
    (81 / 2 : ℚ) ≠ 40 := by
  refine ⟨?_, ?_, ?_, by norm_num⟩
  · rw [insert_zones_zones]
    refine find?_foldl_upsert_mem exBatch (zoneNames exBatch) dbEmpty.zones
      (zoneNames_nodup exBatch) ?_
    simp [zoneNames, dedupByKey, exBatch, exTrip]
  · show zoneAvgLat exBatch "ZA" = 81 / 2
    simp only [zoneAvgLat, zoneRefs, exBatch, exTrip, rawAB, List.filter, pickupLat,
      dropoffLat]
    norm_num
  · have h1 : (decide ("ZB" = "ZA")) = false := by decide
    have h2 : (decide ("ZA" = "ZA")) = true := by decide
    simp only [specZoneAvgLat, specZoneLats, exBatch, exTrip, rawAB, List.filter, pickupLat,
      dropoffLat, h1, h2]
    norm_num

/-- C3 amended: for every cleaned batch loaded by insert_zones, the
latitude and longitude written for a zone equal the flattened mean of
the pickup and dropoff coordinate pairs of all batch rows referencing
that zone by either endpoint (and the trip count is the number of such
rows), replacing any existing row of that name. -/
theorem C3_amended_zone_mean_over_referencing_trips (df : List CleanedRecord)
    (s : DBState) (z : String) (hz : z ∈ zoneNames df) :
    ((insert_zones s df).zones).find? (fun q => decide (q.zone_name = z)) =
      some (zoneRowFor df z) := by
  rw [insert_zones_zones]
  exact find?_foldl_upsert_mem df (zoneNames df) s.zones (zoneNames_nodup df) hz

/-- C3 witness: the amended statement applied to the concrete one-trip
batch at zone ZB. -/
theorem C3_witness_zone_mean :
    ((insert_zones dbEmpty exBatch).zones).find?
        (fun q => decide (q.zone_name = "ZB")) = some (zoneRowFor exBatch "ZB") :=
  C3_amended_zone_mean_over_referencing_trips exBatch dbEmpty "ZB"
    (by simp [zoneNames, dedupByKey, exBatch, exTrip])

/-! ### Claim C5 -/

/-- C5: loading the same cleaned batch twice leaves the trips table with
exactly the rows of a single load (insert-if-absent by trip id) and the
vendors table unchanged (insert-if-absent by vendor id), while every
zone of the batch holds the batch's recomputed mean coordinates and
count after the second run as after the first: replace semantics, not
accumulation. -/
theorem C5_double_load_trips_vendors_zones (s : DBState) (df : List CleanedRecord) :
    (save_to_database (save_to_database s df) df).trips = (save_to_database s df).trips ∧
    (save_to_database (save_to_database s df) df).vendors = (save_to_database s df).vendors ∧
    ∀ z ∈ zoneNames df,
      ((save_to_database (save_to_database s df) df).zones).find?
          (fun q => decide (q.zone_name = z)) = some (zoneRowFor df z) := by
  refine ⟨?_, ?_, ?_⟩
  · rw [save_to_database_trips (save_to_database s df) df]
    apply foldl_trips_id
    intro r hr
    rw [save_to_database_trips s df]
    exact foldl_trips_mem df _ s.trips r hr
  · rw [save_to_database_vendors (save_to_database s df) df]
    apply foldl_vendors_id
    intro v hv
    rw [save_to_database_vendors s df]
    exact foldl_vendors_mem _ s.vendors v hv
  · intro z hz
    rw [save_to_database_zones]
    exact find?_foldl_upsert_mem df (zoneNames df) _ (zoneNames_nodup df) hz

/-- C5 witness: the double-load statement applied to the empty store and
the concrete one-trip batch, instantiated at zone ZA. -/
theorem C5_witness_double_load :
    (save_to_database (save_to_database dbEmpty exBatch) exBatch).trips =
      (save_to_database dbEmpty exBatch).trips ∧
    ((save_to_database (save_to_database dbEmpty exBatch) exBatch).zones).find?
        (fun q => decide (q.zone_name = "ZA")) = some (zoneRowFor exBatch "ZA") :=
  ⟨(C5_double_load_trips_vendors_zones dbEmpty exBatch).1,
    (C5_double_load_trips_vendors_zones dbEmpty exBatch).2.2 "ZA"
      (by simp [zoneNames, dedupByKey, exBatch, exTrip])⟩

/-! ### Bin-counting lemmas for create_zones -/

lemma countP_range_lt (c : ℤ) :
    ∀ n : ℕ, ((List.range n).countP (fun j : ℕ => decide ((j : ℤ) < c))) = min n c.toNat := by
  intro n
  induction n with
  | zero => simp
  | succ n ih =>
    rw [List.range_succ, List.countP_append, ih]
    by_cases h : (n : ℤ) < c
    · rw [List.countP_cons, List.countP_nil, decide_eq_true h, if_pos rfl]
      omega
    · rw [List.countP_cons, List.countP_nil, decide_eq_false h, if_neg Bool.false_ne_true]
      omega

lemma cutBin_eq_specBin {mn mx v : ℚ} (hlt : mn < mx) (h1 : mn ≤ v) (h2 : v ≤ mx) :
    cutBin mn mx v = specBin mn mx v := by
  have hw : (0 : ℚ) < mx - mn := sub_pos.2 hlt
  have hceil_le : ⌈(v - mn) * 20 / (mx - mn)⌉ ≤ 20 := by
    refine Int.ceil_le.2 ?_
    push_cast
    rw [div_le_iff₀ hw]
    linarith
  unfold cutBin searchSortedLeft cutEdges
  rw [if_neg (ne_of_lt hlt)]
  rw [List.countP_cons]
  have hhead : (decide (mn - (mx - mn) / 1000 < v)) = true := decide_eq_true (by linarith)
  rw [hhead, List.countP_map]
  have hcongr : ∀ j ∈ List.range 20,
      (((fun x => decide (x < v)) ∘ (fun j : ℕ => mn + ((j : ℚ) + 1) * (mx - mn) / 20)) j = true ↔
      ((fun j : ℕ => decide ((j : ℤ) < ⌈(v - mn) * 20 / (mx - mn)⌉ - 1)) j = true)) := by
    intro j _
    simp only [Function.comp, decide_eq_true_eq]
    have hiff1 : (mn + ((j : ℚ) + 1) * (mx - mn) / 20 < v) ↔
        ((j : ℚ) + 1) < (v - mn) * 20 / (mx - mn) := by
      rw [lt_div_iff₀ hw]
      constructor <;> intro h <;> linarith
    rw [hiff1]
    have hiff2 : (((j : ℚ) + 1) < (v - mn) * 20 / (mx - mn)) ↔
        (((j : ℤ) + 1) < ⌈(v - mn) * 20 / (mx - mn)⌉) := by
      rw [Int.lt_ceil]
      push_cast
      rfl
    rw [hiff2]
    omega
  rw [List.countP_congr hcongr, countP_range_lt (⌈(v - mn) * 20 / (mx - mn)⌉ - 1) 20,
    if_pos rfl, specBin]
  omega

/-! ### Column minimum and maximum lemmas -/

lemma foldl_min_le (xs : List ℚ) : ∀ s : ℚ, xs.foldl min s ≤ s := by
  induction xs with
  | nil => intro s; exact le_refl s
  | cons y ys ih =>
    intro s
    rw [List.foldl_cons]
    exact le_trans (ih (min s y)) (min_le_left s y)

lemma foldl_min_le_mem (xs : List ℚ) : ∀ (s a : ℚ), a ∈ xs → xs.foldl min s ≤ a := by
  induction xs with
  | nil => intro s a h; simp at h
  | cons y ys ih =>
    intro s a h
    rw [List.foldl_cons]
    rcases List.mem_cons.1 h with he | hm
    · subst he
      exact le_trans (foldl_min_le ys (min s a)) (min_le_right s a)
    · exact ih _ a hm

lemma listMin_le_mem {l : List ℚ} {a : ℚ} (h : a ∈ l) : listMin l ≤ a := by
  cases l with
  | nil => simp at h
  | cons x xs =>
    simp only [listMin]
    rcases List.mem_cons.1 h with he | hm
    · subst he
      exact foldl_min_le xs a
    · exact foldl_min_le_mem xs x a hm

lemma foldl_max_ge (xs : List ℚ) : ∀ s : ℚ, s ≤ xs.foldl max s := by
  induction xs with
  | nil => intro s; exact le_refl s
  | cons y ys ih =>
    intro s
    rw [List.foldl_cons]
    exact le_trans (le_max_left s y) (ih (max s y))

lemma foldl_max_ge_mem (xs : List ℚ) : ∀ (s a : ℚ), a ∈ xs → a ≤ xs.foldl max s := by
  induction xs with
  | nil => intro s a h; simp at h
  | cons y ys ih =>
    intro s a h
    rw [List.foldl_cons]
    rcases List.mem_cons.1 h with he | hm
    · subst he
      exact le_trans (le_max_right s a) (foldl_max_ge ys (max s a))
    · exact ih _ a hm

lemma le_listMax_mem {l : List ℚ} {a : ℚ} (h : a ∈ l) : a ≤ listMax l := by
  cases l with
  | nil => simp at h
  | cons x xs =>
    simp only [listMax]
    rcases List.mem_cons.1 h with he | hm
    · subst he
      exact foldl_max_ge xs a
    · exact foldl_max_ge_mem xs x a hm

lemma zipWith_get?_some {α β γ : Type} (f : α → β → γ) :
    ∀ (l1 : List α) (l2 : List β) (i : ℕ) (a : α) (b : β),
      l1.get? i = some a → l2.get? i = some b →
      (List.zipWith f l1 l2).get? i = some (f a b) := by
  intro l1
  induction l1 with
  | nil => intro l2 i a b h _; simp at h
  | cons x xs ih =>
    intro l2 i a b h1 h2
    cases l2 with
    | nil => simp at h2
    | cons y ys =>
      cases i with
      | zero =>
        rw [List.get?_cons_zero] at h1 h2
        cases h1
        cases h2
        rfl
      | succ i =>
        rw [List.get?_cons_succ] at h1 h2
        rw [List.zipWith_cons_cons, List.get?_cons_succ]
        exact ih ys i a b h1 h2

lemma create_zones_get? (lats lons : List ℚ) (i : ℕ) (la lo : ℚ)
    (hla : lats.get? i = some la) (hlo : lons.get? i = some lo)
    (hlat : listMin lats < listMax lats) (hlon : listMin lons < listMax lons) :
    (create_zones lats lons).get? i =
      some (zoneLabel (specBin (listMin lats) (listMax lats) la)
        (specBin (listMin lons) (listMax lons) lo)) := by
  have hmla := List.get?_mem hla
  have hmlo := List.get?_mem hlo
  rw [create_zones, zipWith_get?_some _ lats lons i la lo hla hlo,
    cutBin_eq_specBin hlat (listMin_le_mem hmla) (le_listMax_mem hmla),
    cutBin_eq_specBin hlon (listMin_le_mem hmlo) (le_listMax_mem hmlo)]

/-! ### Claim C6 -/

/-- C6: create_zones is a deterministic function of the batch's
coordinate lists: whenever a coordinate column has a nondegenerate
observed range, the label of the point at index i is the pair of
equal-width 20-bin indices of its latitude and longitude over the
respective observed min-max ranges; and the same physical coordinate
pair (10, 10) receives different labels in two different batches, so
the zoning is batch-relative, not globally stable. -/
theorem C6_zone_binning_batch_relative :
    (∀ (lats lons : List ℚ) (i : ℕ) (la lo : ℚ),
        lats.get? i = some la → lons.get? i = some lo →
        listMin lats < listMax lats → listMin lons < listMax lons →
        (create_zones lats lons).get? i =
          some (zoneLabel (specBin (listMin lats) (listMax lats) la)
            (specBin (listMin lons) (listMax lons) lo))) ∧
    ((create_zones [0, 10] [0, 10]).get? 1 = some "Zone_19_19" ∧
     (create_zones [10, 30] [10, 30]).get? 0 = some "Zone_0_0" ∧
     "Zone_19_19" ≠ "Zone_0_0") := by
  have hmin1 : listMin [(0 : ℚ), 10] = 0 := by
    simp only [listMin, List.foldl]
    exact min_eq_left (by norm_num)
  have hmax1 : listMax [(0 : ℚ), 10] = 10 := by
    simp only [listMax, List.foldl]
    exact max_eq_right (by norm_num)
  have hmin2 : listMin [(10 : ℚ), 30] = 10 := by
    simp only [listMin, List.foldl]
    exact min_eq_left (by norm_num)
  have hmax2 : listMax [(10 : ℚ), 30] = 30 := by
    simp only [listMax, List.foldl]
    exact max_eq_right (by norm_num)
  refine ⟨fun lats lons i la lo hla hlo hlat hlon =>
    create_zones_get? lats lons i la lo hla hlo hlat hlon, ?_, ?_, by decide⟩
  · have h := create_zones_get? [0, 10] [0, 10] 1 10 10 rfl rfl
      (by rw [hmin1, hmax1]; norm_num) (by rw [hmin1, hmax1]; norm_num)
    rw [hmin1, hmax1] at h
    have hs : specBin (0 : ℚ) 10 10 = 19 := by
      rw [specBin, show ((10 : ℚ) - 0) * 20 / (10 - 0) = ((20 : ℤ) : ℚ) by norm_num,
        Int.ceil_intCast]
      rfl
    rw [hs] at h
    rw [h]
    rw [show zoneLabel 19 19 = "Zone_19_19" by rfl]
  · have h := create_zones_get? [10, 30] [10, 30] 0 10 10 rfl rfl
      (by rw [hmin2, hmax2]; norm_num) (by rw [hmin2, hmax2]; norm_num)
    rw [hmin2, hmax2] at h
    have hs : specBin (10 : ℚ) 30 10 = 0 := by
      rw [specBin, show ((10 : ℚ) - 10) * 20 / (30 - 10) = ((0 : ℤ) : ℚ) by norm_num,
        Int.ceil_intCast]
      rfl
    rw [hs] at h
    rw [h]
    rw [show zoneLabel 0 0 = "Zone_0_0" by rfl]

/-- C6 witness: the binning characterization applied to the concrete
batch with latitudes and longitudes [0, 10], at index 0. -/
theorem C6_witness_zone_binning :
    (create_zones [(0 : ℚ), 10] [(0 : ℚ), 10]).get? 0 =
      some (zoneLabel (specBin (listMin [(0 : ℚ), 10]) (listMax [(0 : ℚ), 10]) 0)
        (specBin (listMin [(0 : ℚ), 10]) (listMax [(0 : ℚ), 10]) 0)) :=
  C6_zone_binning_batch_relative.1 [0, 10] [0, 10] 0 0 0 rfl rfl
    (by simp only [listMin, listMax, List.foldl]
        rw [min_eq_left (by norm_num), max_eq_right (by norm_num)]
        norm_num)
    (by simp only [listMin, listMax, List.foldl]
        rw [min_eq_left (by norm_num), max_eq_right (by norm_num)]
        norm_num)
